import Mathlib

/-!
Shallow embedding of the queue distribution core of the
wazo-call-distribution-plugin: the six distribution strategies
(`strategies/*.py`), the distribution service
(`services/distribution.py`), the failover evaluator
(`services/reliability.py`) and the agent-metrics event pipeline
(`services/event.py`), together with theorems settling the spec claims.

Python machine integers are modelled as `Int`, timestamps as `Int`
(a `now` parameter replaces `datetime.utcnow()`), the SQLAlchemy
session as explicit lists of rows, and the Redis store as explicit
function-valued state. Python's `list.sort(key=...)` (Timsort, a
stable sort) is modelled by `List.insertionSort` with the
corresponding key comparison: two stable sorts under the same total
key preorder produce the same output list, so the embedding computes
exactly what the Python sort computes.
-/

namespace WazoCallDistributor

/-- An agent row (`models/agent.py`); the strategies only ever return
`member.agent`, so only the identity matters here. -/
structure Agent where
  id : Int
deriving Repr, DecidableEq

/-- A queue member row (`models/queue_member.py QueueMember`): the
queue↔agent association carrying penalty and availability flags. -/
structure QueueMember where
  id : Int
  queue_id : Int
  agent : Agent
  penalty : Int
  is_available : Bool
  paused : Bool
deriving Repr, DecidableEq

/-- The record returned by `BaseStrategy.get_member_stats`
(`strategies/base.py`). -/
structure MemberStats where
  last_call_time : Option Int
  calls_taken : Int
  total_talk_time : Int
  average_talk_time : Int
deriving Repr, DecidableEq

/-- `strategies/base.py BaseStrategy.get_member_stats`: the body is a
TODO stub ("Implement stats collection from Redis") that returns the
same constant dictionary for every member. -/
def get_member_stats (member_id : Int) : MemberStats :=
  { last_call_time := none
    calls_taken := 0
    total_talk_time := 0
    average_talk_time := 0 }

/-- The availability filter of `BaseStrategy.get_available_members`
(`is_available == True AND paused == False`); the `queue_id` part of
that query is applied by the caller (`queue_members`). -/
def get_available_members (members : List QueueMember) : List QueueMember :=
  members.filter (fun m => m.is_available && !m.paused)

/-- Comparison used for `members.sort(key=lambda x: x.penalty)`. -/
def penalty_le (a b : QueueMember) : Prop := a.penalty ≤ b.penalty

instance : DecidableRel penalty_le := fun a b => Int.decLe a.penalty b.penalty

instance : IsTotal QueueMember penalty_le := ⟨fun a b => le_total a.penalty b.penalty⟩

instance : IsTrans QueueMember penalty_le := ⟨fun _ _ _ => Int.le_trans⟩

/-- The shared tier computation of every strategy: sort by penalty,
read the lowest penalty off the head, keep only members at that
penalty (in sorted order, as the Python list comprehension does). -/
def lowest_penalty_tier (avail : List QueueMember) : List QueueMember :=
  match avail.insertionSort penalty_le with
  | [] => []
  | m0 :: rest => (m0 :: rest).filter (fun m => m.penalty == m0.penalty)

/-- `strategies/ringall.py RingAllStrategy.get_next_agent`: `None` on no
available members, otherwise the agents of the whole lowest-penalty
group. The Python builds `penalty_groups` by iterating the
penalty-sorted member list and returns the group at
`min(penalty_groups.keys())`; that group is exactly the members of the
sorted list whose penalty equals the head's (minimum) penalty, in
sorted order. -/
def ringall_get_next_agent (members : List QueueMember) : Option (List Agent) :=
  let avail := get_available_members members
  match avail.insertionSort penalty_le with
  | [] => none
  | m0 :: rest =>
    some (((m0 :: rest).filter (fun m => m.penalty == m0.penalty)).map (fun m => m.agent))

/-- The sort key of `strategies/leastrecent.py`:
`(x[1] is not None, x[1] or 0)` on the member's `last_call_time`. -/
def leastrecent_key (t : Option Int) : Bool × Int :=
  (t.isSome, t.getD 0)

/-- Python tuple comparison on a `(bool, int)` key (False < True). -/
def bool_int_le (a b : Bool × Int) : Bool :=
  (a.1.toNat < b.1.toNat) || (a.1 == b.1 && a.2 ≤ b.2)

/-- The `member_stats.sort(key=lambda x: (x[1] is not None, x[1] or 0))`
comparison of leastrecent, on `(member, last_call_time)` pairs. -/
def lct_le (a b : QueueMember × Option Int) : Prop :=
  bool_int_le (leastrecent_key a.2) (leastrecent_key b.2) = true

instance : DecidableRel lct_le := fun a b =>
  instDecidableEqBool (bool_int_le (leastrecent_key a.2) (leastrecent_key b.2)) true

/-- The `member_stats.sort(key=lambda x: x[1])` comparison of
fewestcalls, on `(member, calls_taken)` pairs. -/
def calls_le (a b : QueueMember × Int) : Prop := a.2 ≤ b.2

instance : DecidableRel calls_le := fun a b => Int.decLe a.2 b.2

/-- `strategies/leastrecent.py LeastRecentStrategy.get_next_agent`. -/
def leastrecent_get_next_agent (members : List QueueMember) : Option Agent :=
  let avail := get_available_members members
  match avail.insertionSort penalty_le with
  | [] => none
  | m0 :: rest =>
    let tier := (m0 :: rest).filter (fun m => m.penalty == m0.penalty)
    let member_stats := tier.map (fun m => (m, (get_member_stats m.id).last_call_time))
    match member_stats.insertionSort lct_le with
    | [] => none
    | p :: _ => some p.1.agent

/-- `strategies/fewestcalls.py FewestCallsStrategy.get_next_agent`. -/
def fewestcalls_get_next_agent (members : List QueueMember) : Option Agent :=
  let avail := get_available_members members
  match avail.insertionSort penalty_le with
  | [] => none
  | m0 :: rest =>
    let tier := (m0 :: rest).filter (fun m => m.penalty == m0.penalty)
    let member_stats := tier.map (fun m => (m, (get_member_stats m.id).calls_taken))
    match member_stats.insertionSort calls_le with
    | [] => none
    | p :: _ => some p.1.agent

/-- `strategies/random.py RandomStrategy.get_next_agent`: the
`random.choice(members)` draw is modelled by an index oracle `rand`;
every possible outcome of `random.choice` is `tier[rand % len tier]`
for some oracle value. -/
def random_get_next_agent (rand : Nat) (members : List QueueMember) : Option Agent :=
  let avail := get_available_members members
  match avail.insertionSort penalty_le with
  | [] => none
  | m0 :: rest =>
    let tier := (m0 :: rest).filter (fun m => m.penalty == m0.penalty)
    some ((tier.getD (rand % tier.length) m0).agent)

/-- Comparison used for `members.sort(key=lambda x: x.id)`. -/
def id_le (a b : QueueMember) : Prop := a.id ≤ b.id

instance : DecidableRel id_le := fun a b => Int.decLe a.id b.id

/-- `strategies/linear.py LinearStrategy.get_next_agent`. -/
def linear_get_next_agent (members : List QueueMember) : Option Agent :=
  let avail := get_available_members members
  match avail.insertionSort penalty_le with
  | [] => none
  | m0 :: rest =>
    let tier := (m0 :: rest).filter (fun m => m.penalty == m0.penalty)
    match tier.insertionSort id_le with
    | [] => none
    | m :: _ => some m.agent

/-- `strategies/rrmemory.py RoundRobinMemoryStrategy.get_next_agent`:
`last_position = int(redis.get(key) or -1)`,
`next_position = (last_position + 1) % len(members)`,
`redis.set(key, next_position)`, return `members[next_position]`.
The per-queue Redis cursor is passed in and the written-back value is
returned alongside the selected agent (the cursor is untouched when
there is no available member, since the code returns before the Redis
read). -/
def rrmemory_get_next_agent (members : List QueueMember) (cursor : Option Int) :
    Option Agent × Option Int :=
  let avail := get_available_members members
  match avail.insertionSort penalty_le with
  | [] => (none, cursor)
  | m0 :: rest =>
    let tier := (m0 :: rest).filter (fun m => m.penalty == m0.penalty)
    let last_position := cursor.getD (-1)
    let next_position := ((last_position + 1) % (tier.length : Int)).toNat
    (some ((tier.getD next_position m0).agent), some (next_position : Int))

/-- A queue row (`models/queue.py Queue`), restricted to the fields the
distribution core reads. -/
structure Queue where
  id : Int
  tenant_uuid : String
  strategy : String
deriving Repr, DecidableEq

/-- The strategy lookup table `STRATEGY_MAPPING`
(`strategies/__init__.py`), as a partial map from the strategy string
to a closed tag standing for the strategy class. -/
inductive StrategyTag
  | ringall
  | leastrecent
  | fewestcalls
  | random
  | rrmemory
  | linear
deriving Repr, DecidableEq

def STRATEGY_MAPPING (s : String) : Option StrategyTag :=
  if s == "ringall" then some .ringall
  else if s == "leastrecent" then some .leastrecent
  else if s == "fewestcalls" then some .fewestcalls
  else if s == "random" then some .random
  else if s == "rrmemory" then some .rrmemory
  else if s == "linear" then some .linear
  else none

/-- The state the distribution service reads: queue rows, member rows,
the Redis round-robin cursor keyed by queue id, and the random oracle
for `RandomStrategy`. -/
structure Session where
  queues : List Queue
  members : List QueueMember
  rr_cursor : Int → Option Int
  rand : Nat

/-- The exceptions of `exceptions.py` raised by the distribution
service; `invalidQueueStrategy` carries the offending strategy string
(the Python message is built from it). -/
inductive DistError
  | queueNotFound (queue_id : Int)
  | invalidQueueStrategy (strategy : String)
deriving Repr, DecidableEq

/-- The value returned by `get_next_agents`: `None`, a single agent, or
(for ringall) a list of agents. -/
inductive DistResult
  | noAgent
  | one (a : Agent)
  | many (agents : List Agent)
deriving Repr, DecidableEq

/-- The member rows of one queue (the `queue_id` part of the
`get_available_members` query). -/
def queue_members (s : Session) (queue_id : Int) : List QueueMember :=
  s.members.filter (fun m => m.queue_id == queue_id)

def opt_result (o : Option Agent) : DistResult :=
  match o with
  | none => .noAgent
  | some a => .one a

/-- `strategy_class(queue, self.session).get_next_agent(call_id)`:
dispatch on the resolved strategy tag, running the matching strategy
on the queue's member rows and live cursor/oracle state. `call_id` is
only passed to the `log_distribution` stub, so it is dropped. -/
def run_strategy (tag : StrategyTag) (s : Session) (q : Queue) : DistResult :=
  match tag with
  | .ringall =>
    match ringall_get_next_agent (queue_members s q.id) with
    | none => .noAgent
    | some agents => .many agents
  | .leastrecent => opt_result (leastrecent_get_next_agent (queue_members s q.id))
  | .fewestcalls => opt_result (fewestcalls_get_next_agent (queue_members s q.id))
  | .random => opt_result (random_get_next_agent s.rand (queue_members s q.id))
  | .rrmemory => opt_result (rrmemory_get_next_agent (queue_members s q.id) (s.rr_cursor q.id)).1
  | .linear => opt_result (linear_get_next_agent (queue_members s q.id))

/-- The queue lookup of `get_next_agents`:
`query(Queue).filter(id == queue_id, tenant_uuid == tenant).first()`. -/
def find_queue (s : Session) (queue_id : Int) (tenant_uuid : String) : Option Queue :=
  s.queues.find? (fun q => q.id == queue_id && q.tenant_uuid == tenant_uuid)

/-- `services/distribution.py DistributionService.get_next_agents`. -/
def get_next_agents (s : Session) (queue_id : Int) (tenant_uuid : String) :
    Except DistError DistResult :=
  match find_queue s queue_id tenant_uuid with
  | none => .error (.queueNotFound queue_id)
  | some queue =>
    match STRATEGY_MAPPING queue.strategy with
    | none => .error (.invalidQueueStrategy queue.strategy)
    | some tag => .ok (run_strategy tag s queue)

/-- The primary-key lookup `query(Queue).get(queue_id)` used by
`update_agent_stats` and `get_agent_stats`. -/
def get_queue_by_id (s : Session) (queue_id : Int) : Option Queue :=
  s.queues.find? (fun q => q.id == queue_id)

/-- `strategies/base.py BaseStrategy.update_member_stats`: the body is
a TODO stub ("Implement stats update in Redis") — `pass` — so the
state is returned unchanged. -/
def update_member_stats (s : Session) (member_id call_duration : Int) : Session := s

/-- `services/distribution.py DistributionService.update_agent_stats`. -/
def update_agent_stats (s : Session) (queue_id agent_id call_duration : Int) :
    Except DistError Session :=
  match get_queue_by_id s queue_id with
  | none => .error (.queueNotFound queue_id)
  | some queue =>
    match STRATEGY_MAPPING queue.strategy with
    | none => .error (.invalidQueueStrategy queue.strategy)
    | some _ => .ok (update_member_stats s agent_id call_duration)

/-- `services/distribution.py DistributionService.get_agent_stats`. -/
def get_agent_stats (s : Session) (queue_id agent_id : Int) :
    Except DistError MemberStats :=
  match get_queue_by_id s queue_id with
  | none => .error (.queueNotFound queue_id)
  | some queue =>
    match STRATEGY_MAPPING queue.strategy with
    | none => .error (.invalidQueueStrategy queue.strategy)
    | some _ => .ok (get_member_stats agent_id)

/-! ### Failover evaluator (`services/reliability.py`) -/

/-- A failover configuration row (`models/reliability.py
FailoverConfig`), restricted to the fields the evaluator and the
activate/deactivate operations read or write. Nullable integer columns
are `Option Int`; timestamps are `Option Int`. -/
structure FailoverConfig where
  id : Int
  tenant_uuid : String
  queue_id : Int
  enabled : Bool
  max_queue_size : Option Int
  max_wait_time : Option Int
  service_level_threshold : Option Int
  agent_availability_threshold : Option Int
  active : Bool
  last_activation : Option Int
  last_recovery : Option Int
deriving Repr, DecidableEq

/-- The fields of a `QueueMetrics` row (`models/event.py`) read by
`check_failover_conditions`; `service_level` is a SQL Float, modelled
exactly as a rational. -/
structure QueueMetricsRow where
  calls_waiting : Int
  longest_wait : Int
  service_level : ℚ
  agents_available : Int
deriving Repr, DecidableEq

/-- Python truthiness of a nullable integer column (`if config.x and ...`):
falsy for NULL and for 0. -/
def truthy (o : Option Int) : Bool :=
  match o with
  | none => false
  | some v => v != 0

/-- The reason reported for a triggered failover condition. The Python
builds an f-string from the compared values; the constructor records
which condition fired and the values the message is built from. -/
inductive FailoverReason
  | queueSize (calls_waiting max_queue_size : Int)
  | waitTime (longest_wait max_wait_time : Int)
  | serviceLevel (service_level : ℚ) (threshold : Int)
  | agentAvailability (agents_available threshold : Int)
deriving Repr, DecidableEq

/-- The loop body of `check_failover_conditions` for one config: skip
disabled configs, skip when there is no metrics row, otherwise the
`if`/`elif` chain in source order (queue size, wait time, service
level, agent availability). When a threshold column is truthy it is
non-null, so `getD 0` reads exactly the column value. -/
def eval_failover_config (metrics : Option QueueMetricsRow) (config : FailoverConfig) :
    Option (FailoverConfig × FailoverReason) :=
  if config.enabled = false then none
  else
    match metrics with
    | none => none
    | some m =>
      if truthy config.max_queue_size ∧ m.calls_waiting ≥ config.max_queue_size.getD 0 then
        some (config, .queueSize m.calls_waiting (config.max_queue_size.getD 0))
      else if truthy config.max_wait_time ∧ m.longest_wait ≥ config.max_wait_time.getD 0 then
        some (config, .waitTime m.longest_wait (config.max_wait_time.getD 0))
      else if truthy config.service_level_threshold ∧
          m.service_level < ((config.service_level_threshold.getD 0 : Int) : ℚ) then
        some (config, .serviceLevel m.service_level (config.service_level_threshold.getD 0))
      else if truthy config.agent_availability_threshold ∧
          m.agents_available < config.agent_availability_threshold.getD 0 then
        some (config, .agentAvailability m.agents_available
          (config.agent_availability_threshold.getD 0))
      else none

/-- `reliability.py list_failover_configs`: filter by tenant, and by
queue when the `queue_id` argument is truthy. -/
def list_failover_configs (configs : List FailoverConfig) (tenant_uuid : String)
    (queue_id : Int) : List FailoverConfig :=
  (configs.filter (fun c => c.tenant_uuid == tenant_uuid)).filter
    (fun c => if queue_id ≠ 0 then c.queue_id == queue_id else true)

/-- `reliability.py check_failover_conditions`: the loop appends at most
one `(config, reason)` pair per config; the latest-metrics query inside
the loop returns the same row on every iteration, modelled by the
`metrics` argument. -/
def check_failover_conditions (configs : List FailoverConfig) (metrics : Option QueueMetricsRow)
    (queue_id : Int) (tenant_uuid : String) : List (FailoverConfig × FailoverReason) :=
  (list_failover_configs configs tenant_uuid queue_id).filterMap (eval_failover_config metrics)

/-- The failures of `get_failover_config` / `activate_failover`: both
are Python `ValueError`s, distinguished by their message
("Failover config {id} not found" / "Failover config is disabled");
the latter is the spec taxonomy's InvalidState. -/
inductive RelError
  | configNotFound (config_id : Int)
  | invalidState
deriving Repr, DecidableEq

/-- `reliability.py get_failover_config`'s query:
`filter(id == config_id, tenant_uuid == tenant).first()`. -/
def find_failover_config (configs : List FailoverConfig) (config_id : Int)
    (tenant_uuid : String) : Option FailoverConfig :=
  configs.find? (fun c => c.id == config_id && c.tenant_uuid == tenant_uuid)

/-- `reliability.py activate_failover`; `now` models `datetime.utcnow()`. -/
def activate_failover (configs : List FailoverConfig) (config_id : Int)
    (tenant_uuid : String) (now : Int) : Except RelError FailoverConfig :=
  match find_failover_config configs config_id tenant_uuid with
  | none => .error (.configNotFound config_id)
  | some config =>
    if config.enabled = false then .error .invalidState
    else .ok { config with active := true, last_activation := some now }

/-- `reliability.py deactivate_failover`; `now` models `datetime.utcnow()`. -/
def deactivate_failover (configs : List FailoverConfig) (config_id : Int)
    (tenant_uuid : String) (now : Int) : Except RelError FailoverConfig :=
  match find_failover_config configs config_id tenant_uuid with
  | none => .error (.configNotFound config_id)
  | some config => .ok { config with active := false, last_recovery := some now }

/-! ### Event pipeline agent metrics (`services/event.py`) -/

/-- The agent-state counters of the per-queue Redis metrics hash
(`queue_metrics:{id}`); `hincrby` on an absent field counts from 0, and
`_initialize_queue_metrics` sets all four to 0, so 0 is the initial
value either way. -/
structure QueueAgentCounters where
  agents_logged : Int
  agents_available : Int
  agents_on_call : Int
  agents_paused : Int
deriving Repr, DecidableEq

/-- The Redis state the agent-event handler touches: per-queue counters
and the `current_state` field of each agent's metrics hash (`none` =
field absent). -/
structure MetricsState where
  queue_counters : Int → QueueAgentCounters
  agent_state : Int → Option String

def init_counters : QueueAgentCounters := ⟨0, 0, 0, 0⟩

/-- Freshly initialized metrics: every queue at the zero counters of
`_initialize_queue_metrics`, no agent `current_state` recorded. -/
def init_metrics_state : MetricsState :=
  { queue_counters := fun _ => init_counters, agent_state := fun _ => none }

/-- An agent-type event as consumed by `_update_agent_metrics`
(`record_event` with `event_type == 'agent'`). -/
structure AgentEvent where
  event_name : String
  agent_id : Int
  queue_id : Option Int
deriving Repr, DecidableEq

def set_queue_counters (st : MetricsState) (q : Int) (c : QueueAgentCounters) : MetricsState :=
  { st with queue_counters := fun i => if i == q then c else st.queue_counters i }

def set_agent_state (st : MetricsState) (a : Int) (v : String) : MetricsState :=
  { st with agent_state := fun i => if i == a then some v else st.agent_state i }

/-- `event.py _update_agent_metrics`: only `agent_login` and
`agent_logout` are handled; `if not event.agent_id` / `if
event.queue_id` are Python falsy guards (None or 0 skip). On login the
agent's `current_state` is set to `available` before the queue check;
on logout the previous state decides which state counter is
decremented alongside `agents_logged`, and `current_state` is not
changed. -/
def update_agent_metrics (st : MetricsState) (e : AgentEvent) : MetricsState :=
  if e.agent_id == 0 then st
  else if e.event_name == "agent_login" then
    let st := set_agent_state st e.agent_id "available"
    match e.queue_id with
    | none => st
    | some q =>
      if q == 0 then st
      else
        let c := st.queue_counters q
        set_queue_counters st q
          { c with agents_logged := c.agents_logged + 1,
                   agents_available := c.agents_available + 1 }
  else if e.event_name == "agent_logout" then
    match e.queue_id with
    | none => st
    | some q =>
      if q == 0 then st
      else
        let c := st.queue_counters q
        let c := { c with agents_logged := c.agents_logged - 1 }
        let prev := st.agent_state e.agent_id
        let c :=
          if prev == some "available" then
            { c with agents_available := c.agents_available - 1 }
          else if prev == some "on_call" then
            { c with agents_on_call := c.agents_on_call - 1 }
          else if prev == some "paused" then
            { c with agents_paused := c.agents_paused - 1 }
          else c
        set_queue_counters st q c
  else st

/-- A sequence of recorded agent events, folded through the handler. -/
def run_agent_events (st : MetricsState) (evs : List AgentEvent) : MetricsState :=
  evs.foldl update_agent_metrics st

/-- The counter balance the spec asserts:
`agents_available + agents_on_call + agents_paused = agents_logged`. -/
def counters_balanced (c : QueueAgentCounters) : Prop :=
  c.agents_available + c.agents_on_call + c.agents_paused = c.agents_logged

/-- Balance of every queue's counters. -/
def metrics_balanced (st : MetricsState) : Prop :=
  ∀ q, counters_balanced (st.queue_counters q)

/-- An event is a safe logout step when, if it is a counter-affecting
logout (truthy agent and queue), the agent's recorded state is one of
the three logged-in states the handler knows how to decrement. -/
def logout_safe (st : MetricsState) (e : AgentEvent) : Bool :=
  if e.event_name == "agent_logout" && e.agent_id != 0 &&
      (match e.queue_id with | some q => q != 0 | none => false) then
    st.agent_state e.agent_id == some "available" ||
    st.agent_state e.agent_id == some "on_call" ||
    st.agent_state e.agent_id == some "paused"
  else true

/-- Every logout along the sequence is safe in the state it executes in. -/
def all_logouts_safe : MetricsState → List AgentEvent → Bool
  | _, [] => true
  | st, e :: evs => logout_safe st e && all_logouts_safe (update_agent_metrics st e) evs

/-! ### The rrmemory cursor race (`strategies/rrmemory.py`) -/

/-- The Redis cursor read of rrmemory: `int(redis.get(key) or -1)`. -/
def rr_read (cursor : Option Int) : Int := cursor.getD (-1)

/-- The position computation of rrmemory:
`(last_position + 1) % len(members)`. -/
def rr_next_position (last_position : Int) (tier_len : Nat) : Nat :=
  ((last_position + 1) % (tier_len : Int)).toNat

/-- Two concurrent `get_next_agent` calls on the same queue under the
interleaving GET₁, GET₂, SET₁, SET₂ — an interleaving the code's
separate `redis.get` / `redis.set` steps permit. Both threads compute
their position from the same cursor value. Returns both selected
agents and the cursor finally stored. -/
def rrmemory_race (members : List QueueMember) (cursor : Option Int) :
    Option Agent × Option Agent × Option Int :=
  match lowest_penalty_tier (get_available_members members) with
  | [] => (none, none, cursor)
  | m0 :: rest =>
    let tier := m0 :: rest
    let p1 := rr_next_position (rr_read cursor) tier.length
    let p2 := rr_next_position (rr_read cursor) tier.length
    (some ((tier.getD p1 m0).agent), some ((tier.getD p2 m0).agent), some (p2 : Int))

/-! ### The minimum-penalty-tier postcondition -/

/-- The agent `a` is the agent of some available candidate of minimum
penalty among the available candidates. -/
def in_lowest_tier (a : Agent) (avail : List QueueMember) : Prop :=
  ∃ m ∈ avail, m.agent = a ∧ ∀ x ∈ avail, m.penalty ≤ x.penalty

/-! ### Concrete inputs used by witnesses and counterexamples -/

def c1w_members : List QueueMember :=
  [⟨1, 1, ⟨10⟩, 1, true, false⟩, ⟨2, 1, ⟨20⟩, 0, true, false⟩]

def c2w_queue : Queue := ⟨1, "tenant-a", "linear"⟩

def c2w_session : Session :=
  { queues := [c2w_queue, ⟨2, "tenant-a", "bogus"⟩]
    members := [⟨1, 1, ⟨5⟩, 0, true, false⟩]
    rr_cursor := fun _ => none
    rand := 0 }

def c3_session : Session :=
  { queues := [⟨1, "tenant-a", "fewestcalls"⟩]
    members := [⟨1, 1, ⟨7⟩, 0, true, false⟩]
    rr_cursor := fun _ => none
    rand := 0 }

def c4_members : List QueueMember :=
  [⟨1, 1, ⟨1⟩, 0, true, false⟩, ⟨2, 1, ⟨2⟩, 0, true, false⟩, ⟨3, 1, ⟨3⟩, 1, true, false⟩]

def c5w_members : List QueueMember :=
  [⟨1, 1, ⟨1⟩, 0, true, false⟩, ⟨2, 1, ⟨2⟩, 0, true, false⟩, ⟨3, 1, ⟨3⟩, 0, true, false⟩]

def c6_members : List QueueMember :=
  [⟨1, 1, ⟨1⟩, 0, true, false⟩, ⟨2, 1, ⟨2⟩, 0, true, false⟩, ⟨3, 1, ⟨3⟩, 0, true, false⟩]

def c7w_config : FailoverConfig :=
  { id := 1, tenant_uuid := "tenant-a", queue_id := 4, enabled := true
    max_queue_size := none, max_wait_time := some 60, service_level_threshold := some 80
    agent_availability_threshold := none, active := false
    last_activation := none, last_recovery := none }

def c7w_metrics : QueueMetricsRow :=
  { calls_waiting := 3, longest_wait := 120, service_level := 50, agents_available := 2 }

def c8w_config : FailoverConfig :=
  { id := 2, tenant_uuid := "tenant-a", queue_id := 4, enabled := true
    max_queue_size := none, max_wait_time := none, service_level_threshold := none
    agent_availability_threshold := none, active := false
    last_activation := none, last_recovery := none }

def c9_bad_event : AgentEvent := ⟨"agent_logout", 1, some 1⟩

def c9w_events : List AgentEvent :=
  [⟨"agent_login", 1, some 1⟩, ⟨"agent_logout", 1, some 1⟩]

def c10w_session : Session :=
  { queues := [⟨3, "tenant-a", "leastrecent"⟩]
    members := []
    rr_cursor := fun _ => none
    rand := 0 }

/-! ## Theorems -/

/-- The head of the penalty-sorted candidate list is an available
candidate of minimum penalty. -/
theorem insertionSort_head_min (avail : List QueueMember) (m0 : QueueMember)
    (rest : List QueueMember) (h : avail.insertionSort penalty_le = m0 :: rest) :
    m0 ∈ avail ∧ ∀ x ∈ avail, m0.penalty ≤ x.penalty := by
  have hperm : (m0 :: rest).Perm avail := by
    have := List.perm_insertionSort penalty_le avail
    rwa [h] at this
  refine ⟨hperm.mem_iff.mp (List.mem_cons_self _ _), ?_⟩
  intro x hx
  rcases List.mem_cons.mp (hperm.mem_iff.mpr hx) with rfl | hx'
  · exact le_refl _
  · have hp := List.sorted_insertionSort penalty_le avail
    rw [h] at hp
    exact List.rel_of_sorted_cons hp x hx'

/-- Every member of the lowest-penalty filter of the sorted list is an
available candidate of minimum penalty. -/
theorem tier_mem_min (avail : List QueueMember) (m0 : QueueMember) (rest : List QueueMember)
    (h : avail.insertionSort penalty_le = m0 :: rest) :
    ∀ m ∈ (m0 :: rest).filter (fun m => m.penalty == m0.penalty),
      m ∈ avail ∧ ∀ x ∈ avail, m.penalty ≤ x.penalty := by
  intro m hm
  obtain ⟨hmem, hpen⟩ := List.mem_filter.mp hm
  obtain ⟨h0, hmin⟩ := insertionSort_head_min avail m0 rest h
  have hperm : (m0 :: rest).Perm avail := by
    have := List.perm_insertionSort penalty_le avail
    rwa [h] at this
  have heq : m.penalty = m0.penalty := by simpa using hpen
  refine ⟨hperm.mem_iff.mp hmem, fun x hx => ?_⟩
  have := hmin x hx
  omega

theorem tier_agent_lowest (avail : List QueueMember) (m0 : QueueMember)
    (rest : List QueueMember) (h : avail.insertionSort penalty_le = m0 :: rest) :
    ∀ m ∈ (m0 :: rest).filter (fun m => m.penalty == m0.penalty),
      in_lowest_tier m.agent avail := by
  intro m hm
  obtain ⟨h1, h2⟩ := tier_mem_min avail m0 rest h m hm
  exact ⟨m, h1, rfl, h2⟩

theorem sort_head_mem {α : Type} (r : α → α → Prop) [DecidableRel r] (l : List α) (x : α)
    (t : List α) (h : l.insertionSort r = x :: t) : x ∈ l := by
  have := List.perm_insertionSort r l
  rw [h] at this
  exact this.mem_iff.mp (List.mem_cons_self _ _)

theorem getD_mem_or {α : Type} (l : List α) (n : Nat) (d : α) :
    l.getD n d ∈ l ∨ l.getD n d = d := by
  induction l generalizing n with
  | nil => right; simp [List.getD]
  | cons a t ih =>
    cases n with
    | zero => left; simp
    | succ k =>
      rcases ih k with h | h
      · left
        rw [List.getD_cons_succ]
        exact List.mem_cons_of_mem _ h
      · right
        rw [List.getD_cons_succ]
        exact h

theorem head_mem_tier (m0 : QueueMember) (rest : List QueueMember) :
    m0 ∈ (m0 :: rest).filter (fun m => m.penalty == m0.penalty) := by
  rw [List.filter_cons_of_pos (by simp)]
  exact List.mem_cons_self _ _

theorem fewestcalls_some_in_tier (members : List QueueMember) (a : Agent)
    (h : fewestcalls_get_next_agent members = some a) :
    in_lowest_tier a (get_available_members members) := by
  simp only [fewestcalls_get_next_agent] at h
  split at h
  · simp at h
  · next m0 rest hs =>
    split at h
    · simp at h
    · next p tail hs2 =>
      simp only [Option.some.injEq] at h
      subst h
      have hp : p ∈ ((m0 :: rest).filter (fun m => m.penalty == m0.penalty)).map
          (fun m => (m, (get_member_stats m.id).calls_taken)) :=
        sort_head_mem calls_le _ _ _ hs2
      obtain ⟨m, hm, hpm⟩ := List.mem_map.mp hp
      have h1 : p.1 = m := by rw [← hpm]
      rw [h1]
      exact tier_agent_lowest _ _ _ hs m hm

theorem leastrecent_some_in_tier (members : List QueueMember) (a : Agent)
    (h : leastrecent_get_next_agent members = some a) :
    in_lowest_tier a (get_available_members members) := by
  simp only [leastrecent_get_next_agent] at h
  split at h
  · simp at h
  · next m0 rest hs =>
    split at h
    · simp at h
    · next p tail hs2 =>
      simp only [Option.some.injEq] at h
      subst h
      have hp : p ∈ ((m0 :: rest).filter (fun m => m.penalty == m0.penalty)).map
          (fun m => (m, (get_member_stats m.id).last_call_time)) :=
        sort_head_mem lct_le _ _ _ hs2
      obtain ⟨m, hm, hpm⟩ := List.mem_map.mp hp
      have h1 : p.1 = m := by rw [← hpm]
      rw [h1]
      exact tier_agent_lowest _ _ _ hs m hm

theorem linear_some_in_tier (members : List QueueMember) (a : Agent)
    (h : linear_get_next_agent members = some a) :
    in_lowest_tier a (get_available_members members) := by
  simp only [linear_get_next_agent] at h
  split at h
  · simp at h
  · next m0 rest hs =>
    split at h
    · simp at h
    · next m tail hs2 =>
      simp only [Option.some.injEq] at h
      subst h
      exact tier_agent_lowest _ _ _ hs m (sort_head_mem id_le _ _ _ hs2)

theorem random_some_in_tier (rand : Nat) (members : List QueueMember) (a : Agent)
    (h : random_get_next_agent rand members = some a) :
    in_lowest_tier a (get_available_members members) := by
  simp only [random_get_next_agent] at h
  split at h
  · simp at h
  · next m0 rest hs =>
    simp only [Option.some.injEq] at h
    subst h
    rcases getD_mem_or ((m0 :: rest).filter (fun m => m.penalty == m0.penalty)) _ m0 with
      hm | hm
    · exact tier_agent_lowest _ _ _ hs _ hm
    · rw [hm]
      exact tier_agent_lowest _ _ _ hs _ (head_mem_tier m0 rest)

theorem rrmemory_some_in_tier (members : List QueueMember) (cursor : Option Int) (a : Agent)
    (h : (rrmemory_get_next_agent members cursor).1 = some a) :
    in_lowest_tier a (get_available_members members) := by
  simp only [rrmemory_get_next_agent] at h
  split at h
  · simp at h
  · next m0 rest hs =>
    simp only [Option.some.injEq] at h
    subst h
    rcases getD_mem_or ((m0 :: rest).filter (fun m => m.penalty == m0.penalty)) _ m0 with
      hm | hm
    · exact tier_agent_lowest _ _ _ hs _ hm
    · rw [hm]
      exact tier_agent_lowest _ _ _ hs _ (head_mem_tier m0 rest)

/-- The list ringall returns is (a permutation of) the agents of all
minimum-penalty available candidates. -/
theorem ringall_some_entire_tier (members : List QueueMember) (l : List Agent)
    (h : ringall_get_next_agent members = some l) :
    l.Perm (((get_available_members members).filter
      (fun m => decide (∀ x ∈ get_available_members members, m.penalty ≤ x.penalty))).map
        (fun m => m.agent)) := by
  simp only [ringall_get_next_agent] at h
  split at h
  · simp at h
  · next m0 rest hs =>
    simp only [Option.some.injEq] at h
    subst h
    have hperm : (m0 :: rest).Perm (get_available_members members) := by
      have := List.perm_insertionSort penalty_le (get_available_members members)
      rwa [hs] at this
    have hfilter := hperm.filter (fun m => m.penalty == m0.penalty)
    have hcongr : (get_available_members members).filter (fun m => m.penalty == m0.penalty) =
        (get_available_members members).filter
          (fun m => decide (∀ x ∈ get_available_members members, m.penalty ≤ x.penalty)) := by
      apply List.filter_congr
      intro x hx
      obtain ⟨h0, hmin⟩ := insertionSort_head_min _ _ _ hs
      rw [Bool.beq_eq_decide_eq, decide_eq_decide]
      constructor
      · intro he x' hx'
        have := hmin x' hx'
        omega
      · intro hminx
        have h1 : x.penalty ≤ m0.penalty := hminx m0 h0
        have h2 : m0.penalty ≤ x.penalty := hmin x hx
        omega
    have := hfilter.map (fun m => m.agent)
    rw [hcongr] at this
    exact this

/-- On a nonempty available list, ringall does return a list. -/
theorem ringall_some_of_nonempty (members : List QueueMember)
    (h : get_available_members members ≠ []) :
    ∃ l, ringall_get_next_agent members = some l := by
  simp only [ringall_get_next_agent]
  split
  · next hs =>
    have := List.perm_insertionSort penalty_le (get_available_members members)
    rw [hs] at this
    exact absurd this.symm.eq_nil h
  · exact ⟨_, rfl⟩

/-- With no available member every strategy returns `None`. -/
theorem strategies_none_of_empty (members : List QueueMember) (cursor : Option Int)
    (rand : Nat) (h : get_available_members members = []) :
    ringall_get_next_agent members = none ∧
    leastrecent_get_next_agent members = none ∧
    fewestcalls_get_next_agent members = none ∧
    random_get_next_agent rand members = none ∧
    (rrmemory_get_next_agent members cursor).1 = none ∧
    linear_get_next_agent members = none := by
  refine ⟨?_, ?_, ?_, ?_, ?_, ?_⟩ <;>
    simp [ringall_get_next_agent, leastrecent_get_next_agent, fewestcalls_get_next_agent,
      random_get_next_agent, rrmemory_get_next_agent, linear_get_next_agent, h,
      List.insertionSort]

/-- C1: for every candidate list, if the list of available unpaused
members is empty every strategy returns `None` (the embeddings are
total, so no exception is possible); otherwise every returned member
belongs to the minimum-penalty tier of the available candidates, and
ringall returns the entire minimum-penalty tier as a list. -/
theorem C1_strategy_tier_postcondition (members : List QueueMember) (cursor : Option Int)
    (rand : Nat) :
    (get_available_members members = [] →
      ringall_get_next_agent members = none ∧
      leastrecent_get_next_agent members = none ∧
      fewestcalls_get_next_agent members = none ∧
      random_get_next_agent rand members = none ∧
      (rrmemory_get_next_agent members cursor).1 = none ∧
      linear_get_next_agent members = none) ∧
    (∀ a, leastrecent_get_next_agent members = some a →
      in_lowest_tier a (get_available_members members)) ∧
    (∀ a, fewestcalls_get_next_agent members = some a →
      in_lowest_tier a (get_available_members members)) ∧
    (∀ a, random_get_next_agent rand members = some a →
      in_lowest_tier a (get_available_members members)) ∧
    (∀ a, (rrmemory_get_next_agent members cursor).1 = some a →
      in_lowest_tier a (get_available_members members)) ∧
    (∀ a, linear_get_next_agent members = some a →
      in_lowest_tier a (get_available_members members)) ∧
    (get_available_members members ≠ [] → ∃ l, ringall_get_next_agent members = some l) ∧
    (∀ l, ringall_get_next_agent members = some l →
      l.Perm (((get_available_members members).filter
        (fun m => decide (∀ x ∈ get_available_members members, m.penalty ≤ x.penalty))).map
          (fun m => m.agent))) :=
  ⟨strategies_none_of_empty members cursor rand,
   leastrecent_some_in_tier members,
   fewestcalls_some_in_tier members,
   random_some_in_tier rand members,
   rrmemory_some_in_tier members cursor,
   linear_some_in_tier members,
   ringall_some_of_nonempty members,
   ringall_some_entire_tier members⟩

theorem C1_strategy_tier_postcondition_witness :
    in_lowest_tier ⟨20⟩ (get_available_members c1w_members) ∧
    List.Perm [(⟨20⟩ : Agent)]
      (((get_available_members c1w_members).filter
        (fun m => decide (∀ x ∈ get_available_members c1w_members, m.penalty ≤ x.penalty))).map
        (fun m => m.agent)) :=
  ⟨(C1_strategy_tier_postcondition c1w_members none 0).2.2.1 ⟨20⟩ (by decide),
   (C1_strategy_tier_postcondition c1w_members none 0).2.2.2.2.2.2.2 [⟨20⟩] (by decide)⟩

/-- C4 (code bug): at the spec scenario's member list
A(id 1, penalty 0), B(id 2, penalty 0), C(id 3, penalty 1), the
fewestcalls strategy as coded returns A's agent — not B's, as the spec
requires — because `get_member_stats` is a TODO stub that reports
`calls_taken = 0` for every member, so the stable sort keeps A first. -/
theorem C4_fewestcalls_stub_returns_A :
    fewestcalls_get_next_agent c4_members = some ⟨1⟩ ∧ (⟨1⟩ : Agent) ≠ ⟨2⟩ := by
  decide

/-- Unfolding of one rrmemory call when the lowest-penalty tier is
known: the selected member is `tier[(cursor.getD (-1) + 1) % len tier]`
and that position is stored back. -/
theorem rrmemory_of_tier (members : List QueueMember) (cursor : Option Int)
    (m0 : QueueMember) (rest : List QueueMember)
    (h : lowest_penalty_tier (get_available_members members) = m0 :: rest) :
    rrmemory_get_next_agent members cursor =
      (some (((m0 :: rest).getD (rr_next_position (rr_read cursor) (m0 :: rest).length)
        m0).agent),
       some ((rr_next_position (rr_read cursor) (m0 :: rest).length : Nat) : Int)) := by
  unfold lowest_penalty_tier at h
  unfold rrmemory_get_next_agent
  cases hs : (get_available_members members).insertionSort penalty_le with
  | nil =>
    rw [hs] at h
    simp at h
  | cons s0 srest =>
    rw [hs] at h
    simp only [List.filter_cons, beq_self_eq_true, if_true] at h
    injection h with h1 h2
    subst h1
    simp only [hs, List.filter_cons, beq_self_eq_true, if_true, h2, rr_next_position, rr_read]

/-- C5: with the tier [a, b, c] and the cursor unset or -1, four
successive calls select a, b, c, a and store cursors 0, 1, 2, 0 (the
index of the member just returned, each feeding the next call). -/
theorem C5_rrmemory_round_robin (members : List QueueMember) (a b c : QueueMember)
    (cursor0 : Option Int)
    (h : lowest_penalty_tier (get_available_members members) = [a, b, c])
    (hc : cursor0 = none ∨ cursor0 = some (-1)) :
    rrmemory_get_next_agent members cursor0 = (some a.agent, some 0) ∧
    rrmemory_get_next_agent members (some 0) = (some b.agent, some 1) ∧
    rrmemory_get_next_agent members (some 1) = (some c.agent, some 2) ∧
    rrmemory_get_next_agent members (some 2) = (some a.agent, some 0) := by
  refine ⟨?_, ?_, ?_, ?_⟩
  · rw [rrmemory_of_tier members cursor0 a [b, c] h]
    rcases hc with rfl | rfl <;>
      norm_num [rr_read, rr_next_position, List.getD_cons_zero, Int.toNat_ofNat,
        List.getElem_cons_zero, List.getElem_cons_succ]
  · rw [rrmemory_of_tier members (some 0) a [b, c] h]
    norm_num [rr_read, rr_next_position, List.getD_cons_zero, List.getD_cons_succ,
      Int.toNat_ofNat, List.getElem_cons_zero, List.getElem_cons_succ]
  · rw [rrmemory_of_tier members (some 1) a [b, c] h]
    norm_num [rr_read, rr_next_position, List.getD_cons_zero, List.getD_cons_succ,
      Int.toNat_ofNat, List.getElem_cons_zero, List.getElem_cons_succ]
    rfl
  · rw [rrmemory_of_tier members (some 2) a [b, c] h]
    norm_num [rr_read, rr_next_position, List.getD_cons_zero, List.getD_cons_succ,
      Int.toNat_ofNat, List.getElem_cons_zero, List.getElem_cons_succ]

theorem C5_rrmemory_round_robin_witness :
    rrmemory_get_next_agent c5w_members none = (some ⟨1⟩, some 0) ∧
    rrmemory_get_next_agent c5w_members (some 0) = (some ⟨2⟩, some 1) ∧
    rrmemory_get_next_agent c5w_members (some 1) = (some ⟨3⟩, some 2) ∧
    rrmemory_get_next_agent c5w_members (some 2) = (some ⟨1⟩, some 0) :=
  C5_rrmemory_round_robin c5w_members ⟨1, 1, ⟨1⟩, 0, true, false⟩ ⟨2, 1, ⟨2⟩, 0, true, false⟩
    ⟨3, 1, ⟨3⟩, 0, true, false⟩ none (by decide) (Or.inl rfl)

/-- C6 (code bug): the rrmemory cursor update is a separate Redis GET
and SET; under the interleaving GET₁, GET₂, SET₁, SET₂ of two
concurrent calls on a three-member tier with unset cursor, both calls
compute position 0 and are assigned the same member's agent, which the
claimed atomicity would forbid. -/
theorem C6_rrmemory_race_double_assignment :
    rrmemory_race c6_members none = (some ⟨1⟩, some ⟨1⟩, some 0) ∧
    (lowest_penalty_tier (get_available_members c6_members)).length = 3 := by
  decide

/-- C2: `get_next_agents` raises `QueueNotFound` exactly when no queue
with that id exists for the tenant, raises `InvalidQueueStrategy`
exactly when the queue exists but its strategy string has no entry in
`STRATEGY_MAPPING`, and otherwise returns the result of the matching
strategy engine run on that queue's state. -/
theorem C2_get_next_agents_dispatch (s : Session) (queue_id : Int) (tenant_uuid : String) :
    (find_queue s queue_id tenant_uuid = none ↔
      get_next_agents s queue_id tenant_uuid = .error (.queueNotFound queue_id)) ∧
    ∀ q, find_queue s queue_id tenant_uuid = some q →
      ((STRATEGY_MAPPING q.strategy = none ↔
        get_next_agents s queue_id tenant_uuid = .error (.invalidQueueStrategy q.strategy)) ∧
       ∀ tag, STRATEGY_MAPPING q.strategy = some tag →
        get_next_agents s queue_id tenant_uuid = .ok (run_strategy tag s q)) := by
  constructor
  · constructor
    · intro h
      simp [get_next_agents, h]
    · intro h
      cases hf : find_queue s queue_id tenant_uuid with
      | none => rfl
      | some q =>
        cases hm : STRATEGY_MAPPING q.strategy with
        | none => simp [get_next_agents, hf, hm] at h
        | some tag => simp [get_next_agents, hf, hm] at h
  · intro q hq
    constructor
    · constructor
      · intro h
        simp [get_next_agents, hq, h]
      · intro h
        cases hm : STRATEGY_MAPPING q.strategy with
        | none => rfl
        | some tag => simp [get_next_agents, hq, hm] at h
    · intro tag htag
      simp [get_next_agents, hq, htag]

theorem C2_get_next_agents_dispatch_witness :
    get_next_agents c2w_session 1 "tenant-a" = .ok (run_strategy .linear c2w_session c2w_queue) ∧
    get_next_agents c2w_session 2 "tenant-a" = .error (.invalidQueueStrategy "bogus") ∧
    get_next_agents c2w_session 9 "tenant-a" = .error (.queueNotFound 9) :=
  ⟨((C2_get_next_agents_dispatch c2w_session 1 "tenant-a").2 c2w_queue rfl).2 .linear rfl,
   ((C2_get_next_agents_dispatch c2w_session 2 "tenant-a").2 ⟨2, "tenant-a", "bogus"⟩ rfl).1.mp
     rfl,
   (C2_get_next_agents_dispatch c2w_session 9 "tenant-a").1.mp rfl⟩

/-- C3 (code bug): `update_agent_stats` delegates to
`BaseStrategy.update_member_stats`, whose body is a TODO stub
("Implement stats update in Redis") — it changes nothing — and
`get_agent_stats` delegates to the constant `get_member_stats` stub;
evaluated at the failing input, the update succeeds yet the stats
still read `calls_taken = 0`, not the incremented values the claim
requires. -/
theorem C3_update_stats_is_noop :
    update_agent_stats c3_session 1 7 10 = .ok c3_session ∧
    get_agent_stats c3_session 1 7 =
      .ok { last_call_time := none, calls_taken := 0, total_talk_time := 0,
            average_talk_time := 0 } :=
  ⟨rfl, rfl⟩

/-- C10: whenever the queue exists and its strategy is registered,
`get_agent_stats` returns the constant all-zero record — independent of
the member, the queue, and any previously performed `update_agent_stats`
calls, since a successful update leaves the state unchanged. -/
theorem C10_get_stats_constant (s : Session) (queue_id agent_id : Int) (q : Queue)
    (tag : StrategyTag) (hq : get_queue_by_id s queue_id = some q)
    (ht : STRATEGY_MAPPING q.strategy = some tag) :
    get_agent_stats s queue_id agent_id =
      .ok { last_call_time := none, calls_taken := 0, total_talk_time := 0,
            average_talk_time := 0 } ∧
    ∀ member_id call_duration s2,
      update_agent_stats s queue_id member_id call_duration = .ok s2 → s2 = s := by
  constructor
  · simp [get_agent_stats, hq, ht, get_member_stats]
  · intro member_id call_duration s2 h
    simp only [update_agent_stats, hq, ht, update_member_stats] at h
    cases h
    rfl

theorem C10_get_stats_constant_witness :
    get_agent_stats c10w_session 3 42 =
      .ok { last_call_time := none, calls_taken := 0, total_talk_time := 0,
            average_talk_time := 0 } :=
  (C10_get_stats_constant c10w_session 3 42 ⟨3, "tenant-a", "leastrecent"⟩ .leastrecent
    rfl rfl).1

/-- `eval_failover_config` only ever pairs a reason with the very
config it evaluated. -/
theorem eval_failover_config_fst (metrics : Option QueueMetricsRow) (c : FailoverConfig)
    (p : FailoverConfig × FailoverReason) (h : eval_failover_config metrics c = some p) :
    p.1 = c := by
  unfold eval_failover_config at h
  split at h
  · simp at h
  · split at h
    · simp at h
    · split at h
      · rw [Option.some.injEq] at h
        rw [← h]
      · split at h
        · rw [Option.some.injEq] at h
          rw [← h]
        · split at h
          · rw [Option.some.injEq] at h
            rw [← h]
          · split at h
            · rw [Option.some.injEq] at h
              rw [← h]
            · simp at h

/-- Tuples of the filterMap carry at most as many hits per key as the
source configs, because each config yields at most one tuple holding
itself. -/
theorem countP_filterMap_le {α β : Type} (l : List α) (f : α → Option (α × β))
    (hf : ∀ a p, f a = some p → p.1 = a) (pr : α → Bool) :
    (l.filterMap f).countP (fun p => pr p.1) ≤ l.countP pr := by
  induction l with
  | nil => simp
  | cons a t ih =>
    rw [List.filterMap_cons]
    cases hfa : f a with
    | none =>
      rw [List.countP_cons]
      exact le_trans ih (Nat.le_add_right _ _)
    | some p =>
      rw [List.countP_cons, List.countP_cons]
      have h1 : p.1 = a := hf a p hfa
      rw [h1]
      by_cases hp : pr a = true <;> simp [hp] <;> omega

theorem countP_le_one_of_nodup_map {α β : Type} [BEq β] [LawfulBEq β] (l : List α)
    (f : α → β) (h : (l.map f).Nodup) (i : β) : l.countP (fun a => f a == i) ≤ 1 := by
  induction l with
  | nil => simp
  | cons a t ih =>
    rw [List.map_cons, List.nodup_cons] at h
    rw [List.countP_cons]
    by_cases hfa : (f a == i) = true
    · have hzero : t.countP (fun x => f x == i) = 0 := by
        by_contra hne
        obtain ⟨x, hx, hpx⟩ := List.countP_pos_iff.mp (Nat.pos_of_ne_zero hne)
        have hfx : f x = i := by simpa using hpx
        have hfa' : f a = i := by simpa using hfa
        exact h.1 (List.mem_map.mpr ⟨x, hx, by rw [hfx, hfa']⟩)
      simp [hzero, hfa]
    · have := ih h.2
      simp [hfa]
      omega

/-- When a config in the listed configs triggers, its tuple is in the
result. -/
theorem check_mem_of_eval (configs : List FailoverConfig) (metrics : Option QueueMetricsRow)
    (queue_id : Int) (tenant_uuid : String) (cfg : FailoverConfig)
    (p : FailoverConfig × FailoverReason)
    (hmem : cfg ∈ list_failover_configs configs tenant_uuid queue_id)
    (he : eval_failover_config metrics cfg = some p) :
    p ∈ check_failover_conditions configs metrics queue_id tenant_uuid :=
  List.mem_filterMap.mpr ⟨cfg, hmem, he⟩

/-- The wait-time condition fires (and yields the tuple) whenever the
config is enabled, the queue-size condition does not fire, and the
wait threshold is breached — regardless of the service-level breach,
which is only reached through the `elif`. -/
theorem eval_failover_wait_first (m : QueueMetricsRow) (cfg : FailoverConfig)
    (hen : cfg.enabled = true)
    (hqs : ¬(truthy cfg.max_queue_size ∧ m.calls_waiting ≥ cfg.max_queue_size.getD 0))
    (hwt : truthy cfg.max_wait_time ∧ m.longest_wait ≥ cfg.max_wait_time.getD 0) :
    eval_failover_config (some m) cfg =
      some (cfg, .waitTime m.longest_wait (cfg.max_wait_time.getD 0)) := by
  unfold eval_failover_config
  rw [hen]
  rw [if_neg (by simp)]
  dsimp only
  rw [if_neg hqs, if_pos hwt]

theorem eval_failover_queue_size_first (m : QueueMetricsRow) (cfg : FailoverConfig)
    (hen : cfg.enabled = true)
    (hqs : truthy cfg.max_queue_size ∧ m.calls_waiting ≥ cfg.max_queue_size.getD 0) :
    eval_failover_config (some m) cfg =
      some (cfg, .queueSize m.calls_waiting (cfg.max_queue_size.getD 0)) := by
  unfold eval_failover_config
  rw [hen]
  rw [if_neg (by simp)]
  dsimp only
  rw [if_pos hqs]

/-- C7: each config contributes at most one `(config, reason)` tuple;
the conditions are evaluated in the fixed order queue size, wait time,
service level, agent availability and only the first match reports; in
particular a snapshot breaching both the wait-time and service-level
thresholds of an enabled config (queue size not breached) produces
exactly one tuple for that config, citing wait time. -/
theorem C7_failover_first_violation (configs : List FailoverConfig)
    (metrics : Option QueueMetricsRow) (queue_id : Int) (tenant_uuid : String)
    (m : QueueMetricsRow) (cfg : FailoverConfig)
    (hnodup : ((list_failover_configs configs tenant_uuid queue_id).map
      (fun c => c.id)).Nodup) :
    (∀ i, (check_failover_conditions configs metrics queue_id tenant_uuid).countP
      (fun p => p.1.id == i) ≤ 1) ∧
    (cfg.enabled = true →
      (truthy cfg.max_queue_size ∧ m.calls_waiting ≥ cfg.max_queue_size.getD 0) →
      eval_failover_config (some m) cfg =
        some (cfg, .queueSize m.calls_waiting (cfg.max_queue_size.getD 0))) ∧
    (metrics = some m → cfg.enabled = true →
      ¬(truthy cfg.max_queue_size ∧ m.calls_waiting ≥ cfg.max_queue_size.getD 0) →
      (truthy cfg.max_wait_time ∧ m.longest_wait ≥ cfg.max_wait_time.getD 0) →
      (truthy cfg.service_level_threshold ∧
        m.service_level < ((cfg.service_level_threshold.getD 0 : Int) : ℚ)) →
      cfg ∈ list_failover_configs configs tenant_uuid queue_id →
      (cfg, FailoverReason.waitTime m.longest_wait (cfg.max_wait_time.getD 0)) ∈
        check_failover_conditions configs metrics queue_id tenant_uuid ∧
      (check_failover_conditions configs metrics queue_id tenant_uuid).countP
        (fun p => p.1.id == cfg.id) = 1) := by
  have hcount : ∀ i,
      (check_failover_conditions configs metrics queue_id tenant_uuid).countP
        (fun p => p.1.id == i) ≤ 1 := by
    intro i
    unfold check_failover_conditions
    refine le_trans (countP_filterMap_le (list_failover_configs configs tenant_uuid queue_id)
      (eval_failover_config metrics) (eval_failover_config_fst metrics)
      (fun c => c.id == i)) ?_
    exact countP_le_one_of_nodup_map _ _ hnodup i
  refine ⟨hcount, fun hen hqs => eval_failover_queue_size_first m cfg hen hqs,
    fun hm hen hqs hwt _hsl hmem => ?_⟩
  subst hm
  have he := eval_failover_wait_first m cfg hen hqs hwt
  have hin := check_mem_of_eval configs (some m) queue_id tenant_uuid cfg _ hmem he
  refine ⟨hin, le_antisymm (hcount cfg.id) ?_⟩
  apply List.countP_pos_iff.mpr
  exact ⟨_, hin, by simp⟩

theorem C7_failover_first_violation_witness :
    (c7w_config, FailoverReason.waitTime 120 60) ∈
      check_failover_conditions [c7w_config] (some c7w_metrics) 4 "tenant-a" ∧
    (check_failover_conditions [c7w_config] (some c7w_metrics) 4 "tenant-a").countP
      (fun p => p.1.id == (1 : Int)) = 1 :=
  (C7_failover_first_violation [c7w_config] (some c7w_metrics) 4 "tenant-a" c7w_metrics
      c7w_config (by decide)).2.2 rfl rfl (by decide) (by decide)
    (by constructor
        · decide
        · show (50 : ℚ) < ((80 : Int) : ℚ)
          norm_num)
    (by decide)

/-- C8: for an existing failover config, `activate_failover` fails with
the InvalidState error exactly when `enabled` is false, otherwise sets
`active := true` and timestamps `last_activation`; `deactivate_failover`
never fails on an existing config, sets `active := false` and
timestamps `last_recovery`. -/
theorem C8_activate_deactivate (configs : List FailoverConfig) (config_id : Int)
    (tenant_uuid : String) (now : Int) (c : FailoverConfig)
    (h : find_failover_config configs config_id tenant_uuid = some c) :
    (c.enabled = false →
      activate_failover configs config_id tenant_uuid now = .error .invalidState) ∧
    (c.enabled = true →
      activate_failover configs config_id tenant_uuid now =
        .ok { c with active := true, last_activation := some now }) ∧
    deactivate_failover configs config_id tenant_uuid now =
      .ok { c with active := false, last_recovery := some now } := by
  refine ⟨fun he => ?_, fun he => ?_, ?_⟩
  · simp [activate_failover, h, he]
  · simp [activate_failover, h, he]
  · simp [deactivate_failover, h]

theorem C8_activate_deactivate_witness :
    activate_failover [c8w_config] 2 "tenant-a" 99 =
      .ok { c8w_config with active := true, last_activation := some 99 } ∧
    deactivate_failover [c8w_config] 2 "tenant-a" 99 =
      .ok { c8w_config with active := false, last_recovery := some 99 } :=
  ⟨(C8_activate_deactivate [c8w_config] 2 "tenant-a" 99 c8w_config rfl).2.1 rfl,
   (C8_activate_deactivate [c8w_config] 2 "tenant-a" 99 c8w_config rfl).2.2⟩

theorem set_queue_counters_read (st : MetricsState) (qq : Int) (c : QueueAgentCounters)
    (q : Int) :
    (set_queue_counters st qq c).queue_counters q =
      if q == qq then c else st.queue_counters q := rfl

theorem set_agent_state_counters (st : MetricsState) (a : Int) (v : String) (q : Int) :
    (set_agent_state st a v).queue_counters q = st.queue_counters q := rfl

/-- One safe event preserves the per-queue counter balance. -/
theorem update_preserves_balance (st : MetricsState) (e : AgentEvent)
    (hb : metrics_balanced st) (hs : logout_safe st e = true) :
    metrics_balanced (update_agent_metrics st e) := by
  intro q
  by_cases ha : (e.agent_id == 0) = true
  · simpa [update_agent_metrics, ha] using hb q
  · by_cases hl : (e.event_name == "agent_login") = true
    · cases hq : e.queue_id with
      | none => simpa [update_agent_metrics, ha, hl, hq, set_agent_state] using hb q
      | some qq =>
        by_cases hq0 : (qq == 0) = true
        · simpa [update_agent_metrics, ha, hl, hq, hq0, set_agent_state] using hb q
        · simp only [update_agent_metrics, ha, hl, hq, hq0, if_true, if_false,
            Bool.false_eq_true]
          simp only [set_queue_counters_read, set_agent_state_counters]
          by_cases hqeq : (q == qq) = true
          · have hbq := hb qq
            unfold counters_balanced at hbq ⊢
            simp [hqeq]
            omega
          · simpa [hqeq] using hb q
    · by_cases hlo : (e.event_name == "agent_logout") = true
      · cases hq : e.queue_id with
        | none => simpa [update_agent_metrics, ha, hl, hlo, hq] using hb q
        | some qq =>
          by_cases hq0 : (qq == 0) = true
          · simpa [update_agent_metrics, ha, hl, hlo, hq, hq0] using hb q
          · have hs0 : (e.agent_id = 0 ∨ qq = 0) ∨
                (st.agent_state e.agent_id = some "available" ∨
                  st.agent_state e.agent_id = some "on_call") ∨
                st.agent_state e.agent_id = some "paused" := by
              simpa [logout_safe, hlo, ha, hq, hq0] using hs
            have hs' : st.agent_state e.agent_id = some "available" ∨
                st.agent_state e.agent_id = some "on_call" ∨
                st.agent_state e.agent_id = some "paused" := by
              rcases hs0 with h0 | h0
              · rcases h0 with h0 | h0
                · exact absurd h0 (by simpa using ha)
                · exact absurd h0 (by simpa using hq0)
              · rcases h0 with (h0 | h0) | h0
                · exact Or.inl h0
                · exact Or.inr (Or.inl h0)
                · exact Or.inr (Or.inr h0)
            simp only [update_agent_metrics, ha, hl, hlo, hq, hq0, if_true, if_false,
              Bool.false_eq_true]
            simp only [set_queue_counters_read]
            by_cases hqeq : (q == qq) = true
            · have hbq := hb qq
              unfold counters_balanced at hbq ⊢
              rcases hs' with hp | hp | hp <;> simp [hqeq, hp] <;> omega
            · rcases hs' with hp | hp | hp <;> simpa [hqeq, hp] using hb q
      · simpa [update_agent_metrics, ha, hl, hlo] using hb q

/-- Folding safe events from a balanced state stays balanced. -/
theorem run_preserves_balance (evs : List AgentEvent) (st : MetricsState)
    (hb : metrics_balanced st) (hs : all_logouts_safe st evs = true) :
    metrics_balanced (run_agent_events st evs) := by
  induction evs generalizing st with
  | nil => simpa [run_agent_events] using hb
  | cons e t ih =>
    rw [all_logouts_safe, Bool.and_eq_true] at hs
    have h1 : run_agent_events st (e :: t) =
        run_agent_events (update_agent_metrics st e) t := rfl
    rw [h1]
    exact ih (update_agent_metrics st e) (update_preserves_balance st e hb hs.1) hs.2

/-- C9 counterexample: a recorded `agent_logout` for an agent that
never logged in (current state absent) decrements `agents_logged` but
no state counter, so after the one-event sequence the counters of
queue 1 no longer sum to `agents_logged`. -/
theorem C9_counterexample_logout_first :
    ((run_agent_events init_metrics_state [c9_bad_event]).queue_counters 1).agents_available +
      ((run_agent_events init_metrics_state [c9_bad_event]).queue_counters 1).agents_on_call +
      ((run_agent_events init_metrics_state [c9_bad_event]).queue_counters 1).agents_paused ≠
    ((run_agent_events init_metrics_state [c9_bad_event]).queue_counters 1).agents_logged := by
  decide

/-- C9 amended: starting from initialized queue metrics, after any
sequence of recorded agent lifecycle events in which every
counter-affecting logout happens while the agent's recorded state is
one of available / on_call / paused (i.e. the agent has logged in),
every queue's counters satisfy
`agents_available + agents_on_call + agents_paused = agents_logged`. -/
theorem C9_amended_counters_balance (evs : List AgentEvent)
    (hs : all_logouts_safe init_metrics_state evs = true) :
    metrics_balanced (run_agent_events init_metrics_state evs) :=
  run_preserves_balance evs init_metrics_state
    (fun _ => by simp [init_metrics_state, init_counters, counters_balanced]) hs

theorem C9_amended_counters_balance_witness :
    counters_balanced ((run_agent_events init_metrics_state c9w_events).queue_counters 1) :=
  C9_amended_counters_balance c9w_events (by decide) 1

end WazoCallDistributor
